import Mathlib

/-!
Verification development for `split_pdf.py` (PDF-Splitter).

The file shallowly embeds the parts of the program the claims are about:

* the range-table parser `read_ranges_csv` (rows produced by the CSV reader are
  modelled as lists of cell strings; text decoding of the file under one of the
  candidate encodings is modelled as an abstract `decode` function returning
  either the fully decoded row table or a decoding-failure message, matching the
  fact that only `UnicodeDecodeError` is caught by the encoding-fallback loop);
* the per-record sanity checks of `main` (the range validator);
* the per-record orchestration of `main`: `.pdf`-suffix normalisation, the
  collision-avoiding output-name resolution loop, the page-index extraction
  `range(start_page - 1, end_page)`, and the sequential record loop that writes
  one file per validated record.

Python strings are modelled as lists of characters (`PyStr`); Python integers
are unbounded, so they are modelled as `Int`; the filesystem state relevant to
name resolution is modelled as the list of file names already present in the
output directory.
-/

set_option maxHeartbeats 1000000

/-- Decidable equality for `Except`, used to evaluate the embedding on
concrete inputs. -/
instance {ε α : Type} [DecidableEq ε] [DecidableEq α] : DecidableEq (Except ε α) := fun a b =>
  match a, b with
  | .error e₁, .error e₂ =>
    if h : e₁ = e₂ then .isTrue (by rw [h]) else .isFalse (fun hc => h (by injection hc))
  | .ok a₁, .ok a₂ =>
    if h : a₁ = a₂ then .isTrue (by rw [h]) else .isFalse (fun hc => h (by injection hc))
  | .error _, .ok _ => .isFalse (fun hc => Except.noConfusion hc)
  | .ok _, .error _ => .isFalse (fun hc => Except.noConfusion hc)

/-- Python strings, modelled as lists of characters. -/
abbrev PyStr := List Char

/-- Abbreviation turning a Lean string literal into the Python-string model. -/
def strL (s : String) : PyStr := s.data

/-- Python `str.strip()`: drop leading and trailing whitespace. -/
def pyStrip (s : PyStr) : PyStr :=
  ((s.dropWhile Char.isWhitespace).reverse.dropWhile Char.isWhitespace).reverse

/-- Python `str.lower()`, character-wise. -/
def pyLower (s : PyStr) : PyStr := s.map Char.toLower

/-- Python substring test `sub in s`. -/
def pyContains (s sub : PyStr) : Bool := decide (sub <:+: s)

/-- Python `s.endswith(suf)`. -/
def pyEndsWith (s suf : PyStr) : Bool := decide (suf <:+ s)

/-- Decimal value of a nonempty all-digit string, `none` otherwise. -/
def decDigitsVal (l : PyStr) : Option Nat :=
  if l ≠ [] ∧ l.all Char.isDigit then
    some (l.foldl (fun a c => a * 10 + (c.toNat - 48)) 0)
  else none

/-- Python `int(s)` on an already stripped string: an optional sign followed by
a nonempty run of decimal digits; anything else raises `ValueError` (`none`). -/
def pyInt : PyStr → Option Int
  | '-' :: rest => (decDigitsVal rest).map (fun n => -(n : Int))
  | '+' :: rest => (decDigitsVal rest).map (fun n => (n : Int))
  | s => (decDigitsVal s).map (fun n => (n : Int))

/-- One CSV row as produced by `csv.reader`: a list of cell strings. -/
abbrev Row := List PyStr

/-- A parsed range record, source lines 82 and 139: `(start_page, end_page,
output_file)` with the filename cell already stripped. -/
structure Record where
  start_page : Int
  end_page : Int
  output_file : PyStr
deriving DecidableEq

instance : Inhabited Record := ⟨⟨0, 0, []⟩⟩

/-- Errors raised inside the row loop of `read_ranges_csv` (the `ValueError`s
of source lines 52, 75 and 80); each carries the 1-based row number and the
offending content named in the message. -/
inductive ParseErr where
  | wrongCols (ridx : Nat) (ncols : Nat) (row : Row)
  | notInt (ridx : Nat) (c0 c1 : PyStr)
  | blankName (ridx : Nat)
deriving DecidableEq

/-- Source line 47: `not row or all(not (c or "").strip() for c in row)`.
An empty row list is blank (`List.all` of `[]` is `true`, matching `not row`). -/
def isBlankRow (row : Row) : Bool := row.all (fun c => (pyStrip c).isEmpty)

/-- Source line 67: `header_tokens.issuperset({"start", "stop", "filename"})`
where `header_tokens = {c0.lower(), c1.lower(), c2.lower()}`: each of the three
keywords equals one of the three lowercased cells. -/
def headerTokensSuperset (l0 l1 l2 : PyStr) : Bool :=
  decide (strL "start" = l0 ∨ strL "start" = l1 ∨ strL "start" = l2) &&
  decide (strL "stop" = l0 ∨ strL "stop" = l1 ∨ strL "stop" = l2) &&
  decide (strL "filename" = l0 ∨ strL "filename" = l1 ∨ strL "filename" = l2)

/-- Source lines 62-68: the header criteria, applied to the stripped cells. -/
def isHeaderRow (c0 c1 c2 : PyStr) : Bool :=
  pyContains (pyLower c0) (strL "start") ||
  pyContains (pyLower c1) (strL "stop") ||
  pyContains (pyLower c2) (strL "filename") ||
  headerTokensSuperset (pyLower c0) (pyLower c1) (pyLower c2)

/-- The row loop of `read_ranges_csv`, source lines 44-84, starting at row
number `ridx` (the loop enumerates physical rows from 1): skip blank rows,
require at least 3 cells, skip the physical first row when it matches the
header criteria, parse the two page cells as integers, require a nonblank
filename cell, and accumulate records in row order. -/
def parseFrom : Nat → List Row → Except ParseErr (List Record)
  | _, [] => .ok []
  | ridx, row :: rest =>
    if isBlankRow row then parseFrom (ridx + 1) rest
    else if row.length < 3 then .error (.wrongCols ridx row.length row)
    else if ridx == 1 && isHeaderRow (pyStrip (row.getD 0 [])) (pyStrip (row.getD 1 []))
        (pyStrip (row.getD 2 [])) then parseFrom (ridx + 1) rest
    else
      match pyInt (pyStrip (row.getD 0 [])), pyInt (pyStrip (row.getD 1 [])) with
      | some s, some e =>
        if (pyStrip (row.getD 2 [])).isEmpty then .error (.blankName ridx)
        else (parseFrom (ridx + 1) rest).map (fun rs => ⟨s, e, pyStrip (row.getD 2 [])⟩ :: rs)
      | _, _ => .error (.notInt ridx (pyStrip (row.getD 0 [])) (pyStrip (row.getD 1 [])))

/-- Errors escaping `read_ranges_csv`: a decoding failure surfaced after the
encoding list is exhausted (source line 90), the unreachable `RuntimeError` of
the same line, or a row-loop `ValueError` that propagates uncaught. -/
inductive CsvErr where
  | decodeFail (msg : String)
  | noEncoding
  | parseFail (e : ParseErr)
deriving DecidableEq

/-- Source line 36: `encodings_to_try = ("utf-8-sig", "utf-8", "cp1252")`. -/
def encodings_to_try : List String := ["utf-8-sig", "utf-8", "cp1252"]

/-- The encoding-fallback loop of `read_ranges_csv`, source lines 38-90.
`decode enc` models opening and fully decoding the file under encoding `enc`
and running `csv.reader` over it: `.error msg` is a `UnicodeDecodeError`
(which the loop catches and records in `last_err`), `.ok rows` is the decoded
row table.  A successfully decoded table is parsed by the row loop, whose
errors propagate uncaught (only `UnicodeDecodeError` is caught). -/
def tryEncodings (decode : String → Except String (List Row)) :
    List String → Option String → Except CsvErr (List Record)
  | [], some m => .error (.decodeFail m)
  | [], none => .error .noEncoding
  | enc :: rest, _ =>
    match decode enc with
    | .error m => tryEncodings decode rest (some m)
    | .ok rows =>
      match parseFrom 1 rows with
      | .ok recs => .ok recs
      | .error e => .error (.parseFail e)

/-- `read_ranges_csv`, source lines 26-90, over an abstract decoder. -/
def read_ranges_csv (decode : String → Except String (List Row)) :
    Except CsvErr (List Record) :=
  tryEncodings decode encodings_to_try none

/-- Errors raised by the sanity checks of `main`, source lines 141-148; each
carries the 1-based record position and the numbers in the message. -/
inductive ValErr where
  | pageLow (i : Nat) (s e : Int)
  | inverted (i : Nat) (s e : Int)
  | exceeds (i : Nat) (e total : Int)
deriving DecidableEq

/-- The sanity checks of `main`, source lines 141-148, in source order. -/
def validateRecord (total : Int) (i : Nat) (r : Record) : Except ValErr Unit :=
  if r.start_page < 1 ∨ r.end_page < 1 then .error (.pageLow i r.start_page r.end_page)
  else if r.end_page < r.start_page then .error (.inverted i r.start_page r.end_page)
  else if r.end_page > total then .error (.exceeds i r.end_page total)
  else .ok ()

/-- Source lines 150-153: strip the output name and append `".pdf"` unless its
lowercase form already ends with `".pdf"`. -/
def ensure_pdf (output_file : PyStr) : PyStr :=
  let t := pyStrip output_file
  if pyEndsWith (pyLower t) (strL ".pdf") then t else t ++ strL ".pdf"

/-- Decimal digit characters of `n` in front of `acc`; the first argument is
fuel (one unit per emitted digit), consumed structurally. -/
def natDigitsAux : Nat → Nat → List Char → List Char
  | 0, _, acc => acc
  | fuel + 1, n, acc =>
    if n < 10 then Nat.digitChar n :: acc
    else natDigitsAux fuel (n / 10) (Nat.digitChar (n % 10) :: acc)

/-- The decimal representation `f"{n}"` of a natural number (fuel `n + 1`
always suffices since `n / 10 < n` for `n ≥ 10`). -/
def natDigits (n : Nat) : List Char := natDigitsAux (n + 1) n []

/-- Source line 167: the collision candidate `f"{original_stem}_{counter}.pdf"`. -/
def candName (stem : PyStr) (counter : Nat) : PyStr :=
  stem ++ ('_' :: natDigits counter) ++ strL ".pdf"

/-- `pathlib.Path(name).stem`: the name without its extension, where the
extension is the part from the last dot on, provided that dot is neither the
first nor the last character. -/
def pyStem (name : PyStr) : PyStr :=
  match name.reverse.findIdx? (fun c => c == '.') with
  | none => name
  | some j =>
    if 0 < name.length - 1 - j ∧ name.length - 1 - j < name.length - 1 then
      name.take (name.length - 1 - j)
    else name

/-- The `while out_path.exists()` loop of `main`, source lines 164-168, over
the list of names already present in the output directory.  The loop in the
source runs until a free name is found; the fuel argument is an upper bound on
the number of iterations, shown sufficient in the lemmas below. -/
def resolveLoop (existing : List PyStr) (stem : PyStr) : Nat → PyStr → Nat → PyStr
  | 0, cur, _ => cur
  | fuel + 1, cur, counter =>
    if cur ∈ existing then resolveLoop existing stem fuel (candName stem counter) (counter + 1)
    else cur

/-- Output-name resolution of `main`, source lines 161-168: start from the
normalised name, and while the candidate exists replace it by
`f"{original_stem}_{counter}.pdf"` with `counter = 1, 2, ...`.  Fuel
`existing.length + 2` always suffices (see `resolveName_not_mem`). -/
def resolveName (existing : List PyStr) (output_file : PyStr) : PyStr :=
  resolveLoop existing (pyStem output_file) (existing.length + 2) output_file 1

/-- Python `range(a, b)` over integers. -/
def intRange (a b : Int) : List Int :=
  (List.range (b - a).toNat).map (fun k : Nat => a + (k : Int))

/-- Source lines 157-159: the 0-based page indices copied into the writer,
`range(start_page - 1, end_page)`. -/
def pageIndices (r : Record) : List Int := intRange (r.start_page - 1) r.end_page

/-- One iteration of the record loop of `main`, source lines 139-171, acting on
record `r` at 1-based position `i` with `existing` the names already in the
output directory: validate, normalise the name, resolve collisions, and emit
exactly one written file (its resolved name and its page indices). -/
def splitStep (total : Int) (existing : List PyStr) (i : Nat) (r : Record) :
    Except ValErr (PyStr × List Int) :=
  match validateRecord total i r with
  | .error e => .error e
  | .ok _ => .ok (resolveName existing (ensure_pdf r.output_file), pageIndices r)

/-- The whole record loop of `main`, source lines 139-175: process records in
order, accumulating the files actually written; the first failing sanity check
aborts the loop, leaving the files already written in place and writing nothing
further.  Returns the written files in order and the error, if any. -/
def runSplit (total : Int) : List PyStr → Nat → List Record →
    List (PyStr × List Int) × Option ValErr
  | _, _, [] => ([], none)
  | existing, i, r :: rest =>
    match splitStep total existing i r with
    | .error e => ([], some e)
    | .ok out =>
      let res := runSplit total (out.1 :: existing) (i + 1) rest
      (out :: res.1, res.2)

/-- Modelled from the spec wording of C6: the number of rows of the table that
are neither blank nor the (physical-first-row) header.  Spec-side counting
measure, to be compared with the parser's output length. -/
def countSurvivingFrom : Nat → List Row → Nat
  | _, [] => 0
  | ridx, row :: rest =>
    (if ¬ isBlankRow row ∧
        ¬ (ridx = 1 ∧ isHeaderRow (pyStrip (row.getD 0 [])) (pyStrip (row.getD 1 []))
          (pyStrip (row.getD 2 [])) = true) then 1 else 0) +
    countSurvivingFrom (ridx + 1) rest

/-- Modelled from the spec wording of C7: the encoding preference order the
claim asserts, "UTF-8 first, then UTF-8-with-marker, then Windows-1252".
Comparison definition only; the source order is `encodings_to_try`. -/
def claimedEncodings : List String := ["utf-8", "utf-8-sig", "cp1252"]

/-- Modelled from the spec wording of C7: `read_ranges_csv` as it would behave
with the claimed encoding order.  Comparison definition only. -/
def read_ranges_csv_claimed (decode : String → Except String (List Row)) :
    Except CsvErr (List Record) :=
  tryEncodings decode claimedEncodings none

/-- Auxiliary comparison definition for C3: the row loop with the header branch
removed, used to state that from row index 2 on the parser never performs
header skipping. -/
def parseFromNoHeader : Nat → List Row → Except ParseErr (List Record)
  | _, [] => .ok []
  | ridx, row :: rest =>
    if isBlankRow row then parseFromNoHeader (ridx + 1) rest
    else if row.length < 3 then .error (.wrongCols ridx row.length row)
    else
      match pyInt (pyStrip (row.getD 0 [])), pyInt (pyStrip (row.getD 1 [])) with
      | some s, some e =>
        if (pyStrip (row.getD 2 [])).isEmpty then .error (.blankName ridx)
        else (parseFromNoHeader (ridx + 1) rest).map
          (fun rs => ⟨s, e, pyStrip (row.getD 2 [])⟩ :: rs)
      | _, _ => .error (.notInt ridx (pyStrip (row.getD 0 [])) (pyStrip (row.getD 1 [])))

/-! ### Helper lemmas -/

theorem pyLower_append (a b : PyStr) : pyLower (a ++ b) = pyLower a ++ pyLower b :=
  List.map_append _ a b

theorem pyLower_pdf : pyLower (strL ".pdf") = strL ".pdf" := by decide

theorem pyEndsWith_append (y s : PyStr) : pyEndsWith (y ++ s) s = true := by
  simp only [pyEndsWith, decide_eq_true_eq]
  exact List.suffix_append y s

/-! ### C4: the range validator -/

/-- C4: validation succeeds at `start_page = end_page = total_pages`, fails at
`end_page = total_pages + 1` and at `start_page = 0`; the validator applies
exactly the checks `start_page ≥ 1 ∧ end_page ≥ 1`, then `end_page ≥
start_page`, then `end_page ≤ total_pages`, raising on the first that fails. -/
theorem claim_C4 (total : Int) (i : Nat) (s e : Int) (nm : PyStr) (r : Record)
    (htotal : 0 ≤ total) :
    (1 ≤ total → validateRecord total i ⟨total, total, nm⟩ = .ok ()) ∧
    validateRecord total i ⟨s, total + 1, nm⟩ ≠ .ok () ∧
    validateRecord total i ⟨0, e, nm⟩ ≠ .ok () ∧
    (validateRecord total i r = .ok () ↔
      1 ≤ r.start_page ∧ 1 ≤ r.end_page ∧ r.start_page ≤ r.end_page ∧ r.end_page ≤ total) ∧
    ((r.start_page < 1 ∨ r.end_page < 1) →
      validateRecord total i r = .error (.pageLow i r.start_page r.end_page)) ∧
    (1 ≤ r.start_page → 1 ≤ r.end_page → r.end_page < r.start_page →
      validateRecord total i r = .error (.inverted i r.start_page r.end_page)) ∧
    (1 ≤ r.start_page → r.start_page ≤ r.end_page → total < r.end_page →
      validateRecord total i r = .error (.exceeds i r.end_page total)) := by
  unfold validateRecord
  refine ⟨?_, ?_, ?_, ?_, ?_, ?_, ?_⟩
  · intro h1
    split_ifs with h ha hb <;> simp_all <;> omega
  · split_ifs with h ha hb <;> simp_all <;> omega
  · split_ifs with h ha hb <;> simp_all <;> omega
  · split_ifs with h ha hb <;> simp_all <;> omega
  · intro h
    split_ifs with h' <;> simp_all
  · intro h1 h2 h3
    split_ifs with ha hb <;> simp_all <;> omega
  · intro h1 h2 h3
    split_ifs with ha hb hc <;> simp_all <;> omega

theorem claim_C4_witness :
    ((1:Int) ≤ 3 → validateRecord 3 1 ⟨3, 3, strL "x"⟩ = .ok ()) ∧
    validateRecord 3 1 ⟨2, 3 + 1, strL "x"⟩ ≠ .ok () ∧
    validateRecord 3 1 ⟨0, 5, strL "x"⟩ ≠ .ok () ∧
    (validateRecord 3 1 ⟨2, 3, strL "x"⟩ = .ok () ↔
      1 ≤ (⟨2, 3, strL "x"⟩ : Record).start_page ∧ 1 ≤ (⟨2, 3, strL "x"⟩ : Record).end_page ∧
      (⟨2, 3, strL "x"⟩ : Record).start_page ≤ (⟨2, 3, strL "x"⟩ : Record).end_page ∧
      (⟨2, 3, strL "x"⟩ : Record).end_page ≤ 3) ∧
    (((⟨2, 3, strL "x"⟩ : Record).start_page < 1 ∨ (⟨2, 3, strL "x"⟩ : Record).end_page < 1) →
      validateRecord 3 1 ⟨2, 3, strL "x"⟩ = .error (.pageLow 1 2 3)) ∧
    (1 ≤ (⟨2, 3, strL "x"⟩ : Record).start_page → 1 ≤ (⟨2, 3, strL "x"⟩ : Record).end_page →
      (⟨2, 3, strL "x"⟩ : Record).end_page < (⟨2, 3, strL "x"⟩ : Record).start_page →
      validateRecord 3 1 ⟨2, 3, strL "x"⟩ = .error (.inverted 1 2 3)) ∧
    (1 ≤ (⟨2, 3, strL "x"⟩ : Record).start_page →
      (⟨2, 3, strL "x"⟩ : Record).start_page ≤ (⟨2, 3, strL "x"⟩ : Record).end_page →
      3 < (⟨2, 3, strL "x"⟩ : Record).end_page →
      validateRecord 3 1 ⟨2, 3, strL "x"⟩ = .error (.exceeds 1 3 3)) :=
  claim_C4 3 1 2 5 (strL "x") ⟨2, 3, strL "x"⟩ (by decide)

/-! ### C9: `.pdf` suffix normalisation -/

/-- C9: the output filename used for writing always ends with `".pdf"`
case-insensitively; if the trimmed name already does, it is kept unchanged,
otherwise `".pdf"` is appended. -/
theorem claim_C9 (name : PyStr) :
    pyEndsWith (pyLower (ensure_pdf name)) (strL ".pdf") = true ∧
    (pyEndsWith (pyLower (pyStrip name)) (strL ".pdf") = true →
      ensure_pdf name = pyStrip name) ∧
    (pyEndsWith (pyLower (pyStrip name)) (strL ".pdf") = false →
      ensure_pdf name = pyStrip name ++ strL ".pdf") := by
  refine ⟨?_, ?_, ?_⟩
  · unfold ensure_pdf
    by_cases h : pyEndsWith (pyLower (pyStrip name)) (strL ".pdf") = true
    · rw [if_pos h]
      exact h
    · rw [if_neg h]
      rw [pyLower_append, pyLower_pdf]
      exact pyEndsWith_append _ _
  · intro h
    unfold ensure_pdf
    simp [h]
  · intro h
    unfold ensure_pdf
    simp [h]

theorem claim_C9_witness :
    pyEndsWith (pyLower (ensure_pdf (strL " Intro "))) (strL ".pdf") = true ∧
    (pyEndsWith (pyLower (pyStrip (strL " Intro "))) (strL ".pdf") = true →
      ensure_pdf (strL " Intro ") = pyStrip (strL " Intro ")) ∧
    (pyEndsWith (pyLower (pyStrip (strL " Intro "))) (strL ".pdf") = false →
      ensure_pdf (strL " Intro ") = pyStrip (strL " Intro ") ++ strL ".pdf") :=
  claim_C9 (strL " Intro ")

/-! ### C1: pages of one output document -/

/-- C1: for every validated record, processing it emits exactly one output
file whose pages are precisely source pages `start_page .. end_page` (1-based,
inclusive) in original order, so its page count is `end_page - start_page + 1`. -/
theorem claim_C1 (total : Int) (existing : List PyStr) (i : Nat) (r : Record)
    (h : validateRecord total i r = .ok ()) :
    splitStep total existing i r =
      .ok (resolveName existing (ensure_pdf r.output_file), pageIndices r) ∧
    ((pageIndices r).length : Int) = r.end_page - r.start_page + 1 ∧
    (pageIndices r).map (fun p => p + 1) = intRange r.start_page (r.end_page + 1) := by
  have hb : ¬(r.start_page < 1 ∨ r.end_page < 1) ∧ ¬(r.end_page < r.start_page) := by
    unfold validateRecord at h
    split_ifs at h with h1 h2 h3
    exact ⟨h1, h2⟩
  obtain ⟨h1, h2⟩ := hb
  refine ⟨?_, ?_, ?_⟩
  · unfold splitStep
    rw [h]
  · have hlen : (pageIndices r).length = (r.end_page - (r.start_page - 1)).toNat := by
      unfold pageIndices intRange
      rw [List.length_map, List.length_range]
    rw [hlen, Int.toNat_of_nonneg (by omega)]
    omega
  · simp only [pageIndices, intRange, List.map_map]
    have hn : (r.end_page - (r.start_page - 1)).toNat = (r.end_page + 1 - r.start_page).toNat := by
      omega
    rw [hn]
    congr 1
    funext k
    simp only [Function.comp_apply]
    omega

theorem claim_C1_witness :
    splitStep 5 [] 1 ⟨2, 4, strL "Ch"⟩ =
      .ok (resolveName [] (ensure_pdf (strL "Ch")), pageIndices ⟨2, 4, strL "Ch"⟩) ∧
    ((pageIndices (⟨2, 4, strL "Ch"⟩ : Record)).length : Int) = 4 - 2 + 1 ∧
    (pageIndices (⟨2, 4, strL "Ch"⟩ : Record)).map (fun p => p + 1) = intRange 2 (4 + 1) :=
  claim_C1 5 [] 1 ⟨2, 4, strL "Ch"⟩ (by decide)

/-! ### C3: header detection applies to the physical first row only -/

theorem parseFrom_eq_noHeader (rows : List Row) : ∀ idx, 2 ≤ idx →
    parseFrom idx rows = parseFromNoHeader idx rows := by
  induction rows with
  | nil => intro idx _; rfl
  | cons row rest ih =>
    intro idx hidx
    have h1 : (idx == 1) = false := by
      have h : idx ≠ 1 := by omega
      simpa using h
    simp only [parseFrom, parseFromNoHeader, h1, Bool.false_and, Bool.false_eq_true, if_false]
    by_cases hb : isBlankRow row = true
    · simp [hb, ih (idx + 1) (by omega)]
    · simp only [Bool.not_eq_true] at hb
      by_cases hlen : row.length < 3
      · simp [hb, hlen]
      · simp only [hb, Bool.false_eq_true, if_false, hlen]
        cases pyInt (pyStrip (row.getD 0 [])) <;> cases pyInt (pyStrip (row.getD 1 [])) <;>
          simp [ih (idx + 1) (by omega)]

/-- C3 counterexample: a file whose first row is blank and whose first
non-blank row meets a header criterion (third cell contains `"filename"`)
nevertheless yields a record for that row, so the header test is not applied
to the first non-blank row. -/
theorem claim_C3_counterexample :
    isHeaderRow (pyStrip (strL "1")) (pyStrip (strL "2")) (pyStrip (strL "filename")) = true ∧
    parseFrom 1 [[strL " "], [strL "1", strL "2", strL "filename"]] =
      .ok [⟨1, 2, strL "filename"⟩] ∧
    parseFrom 1 [[strL " "], [strL "1", strL "2", strL "filename"]] ≠ .ok [] := by
  decide

/-- C3 amended: the header criteria are tested only against the physical first
row (row index 1).  A blank first row is skipped without header detection, and
from row index 2 on the parser behaves exactly like the parser with no header
branch at all. -/
theorem claim_C3 (b : Row) (rest : List Row) (idx : Nat) (rows : List Row)
    (hb : isBlankRow b = true) (hidx : 2 ≤ idx) :
    parseFrom 1 (b :: rest) = parseFrom 2 rest ∧
    parseFrom idx rows = parseFromNoHeader idx rows := by
  constructor
  · simp only [parseFrom, hb, if_true]
  · exact parseFrom_eq_noHeader rows idx hidx

theorem claim_C3_witness :
    parseFrom 1 ([strL " "] :: [[strL "1", strL "2", strL "x"]]) =
      parseFrom 2 [[strL "1", strL "2", strL "x"]] ∧
    parseFrom 2 [[strL "start", strL "stop", strL "filename"]] =
      parseFromNoHeader 2 [[strL "start", strL "stop", strL "filename"]] :=
  claim_C3 [strL " "] [[strL "1", strL "2", strL "x"]] 2
    [[strL "start", strL "stop", strL "filename"]] (by decide) (by decide)

/-! ### C8: the column-count check precedes header detection -/

/-- C8 counterexample: a first row with a single cell whose lowercase form
contains `"start"` is not skipped as a header; it is a fatal column-count
error, because the `len(row) < 3` check runs before the header check. -/
theorem claim_C8_counterexample :
    pyContains (pyLower (pyStrip (strL "Start Page"))) (strL "start") = true ∧
    parseFrom 1 [[strL "Start Page"]] = .error (.wrongCols 1 1 [strL "Start Page"]) ∧
    parseFrom 1 [[strL "Start Page"]] ≠ .ok [] := by
  decide

/-- C8 amended: the ≥3-cells requirement applies to every non-blank row,
including a header-like physical first row; any non-blank row with fewer than
3 cells is a fatal parse error naming the row number and the row's contents. -/
theorem claim_C8 (idx : Nat) (row : Row) (rest : List Row)
    (hnb : isBlankRow row = false) (hlen : row.length < 3) :
    parseFrom idx (row :: rest) = .error (.wrongCols idx row.length row) := by
  simp [parseFrom, hnb, hlen]

theorem claim_C8_witness :
    parseFrom 1 ([strL "start"] :: []) = .error (.wrongCols 1 [strL "start"].length [strL "start"]) :=
  claim_C8 1 [strL "start"] [] (by decide) (by decide)

/-! ### C10: parse errors propagate without trying further encodings -/

/-- C10: when the first encoding that decodes the file yields a malformed row,
the parse error propagates as the overall result; in particular the result is
fully determined by the decoders up to that encoding, so the remaining
encodings in the fallback list are never attempted. -/
theorem claim_C10 (d : String → Except String (List Row)) (rows : List Row)
    (pe : ParseErr) (e0 e1 : String) :
    (d "utf-8-sig" = .ok rows → parseFrom 1 rows = .error pe →
      read_ranges_csv d = .error (.parseFail pe)) ∧
    (d "utf-8-sig" = .error e0 → d "utf-8" = .ok rows → parseFrom 1 rows = .error pe →
      read_ranges_csv d = .error (.parseFail pe)) ∧
    (d "utf-8-sig" = .error e0 → d "utf-8" = .error e1 → d "cp1252" = .ok rows →
      parseFrom 1 rows = .error pe → read_ranges_csv d = .error (.parseFail pe)) := by
  refine ⟨?_, ?_, ?_⟩
  · intro h1 h2
    simp [read_ranges_csv, encodings_to_try, tryEncodings, h1, h2]
  · intro h1 h2 h3
    simp [read_ranges_csv, encodings_to_try, tryEncodings, h1, h2, h3]
  · intro h1 h2 h3 h4
    simp [read_ranges_csv, encodings_to_try, tryEncodings, h1, h2, h3, h4]

/-- Concrete decoder used to instantiate C10: the first encoding decodes to a
malformed table (one cell), the others to a perfectly well-formed one. -/
def decodeMalformedFirst : String → Except String (List Row) :=
  fun enc => if enc = "utf-8-sig" then .ok [[strL "1"]]
    else .ok [[strL "1", strL "2", strL "c"]]

theorem claim_C10_witness :
    (decodeMalformedFirst "utf-8-sig" = .ok [[strL "1"]] →
      parseFrom 1 [[strL "1"]] = .error (.wrongCols 1 1 [strL "1"]) →
      read_ranges_csv decodeMalformedFirst = .error (.parseFail (.wrongCols 1 1 [strL "1"]))) ∧
    (decodeMalformedFirst "utf-8-sig" = .error "a" →
      decodeMalformedFirst "utf-8" = .ok [[strL "1"]] →
      parseFrom 1 [[strL "1"]] = .error (.wrongCols 1 1 [strL "1"]) →
      read_ranges_csv decodeMalformedFirst = .error (.parseFail (.wrongCols 1 1 [strL "1"]))) ∧
    (decodeMalformedFirst "utf-8-sig" = .error "a" →
      decodeMalformedFirst "utf-8" = .error "b" →
      decodeMalformedFirst "cp1252" = .ok [[strL "1"]] →
      parseFrom 1 [[strL "1"]] = .error (.wrongCols 1 1 [strL "1"]) →
      read_ranges_csv decodeMalformedFirst = .error (.parseFail (.wrongCols 1 1 [strL "1"]))) :=
  claim_C10 decodeMalformedFirst [[strL "1"]] (.wrongCols 1 1 [strL "1"]) "a" "b"

/-! ### C7: encoding preference order -/

/-- Concrete decoder used to refute the claimed encoding order: the
`utf-8-sig` and `utf-8` decodings succeed with different tables. -/
def decodeOrderSensitive : String → Except String (List Row) :=
  fun enc => if enc = "utf-8-sig" then .ok [[strL "1", strL "2", strL "a"]]
    else if enc = "utf-8" then .ok [[strL "3", strL "4", strL "b"]]
    else .error "boom"

/-- C7 counterexample: the source tries `utf-8-sig` before `utf-8`, so on a
decoder where both succeed with different tables the program's result differs
from the result under the claimed order (UTF-8 first). -/
theorem claim_C7_counterexample :
    read_ranges_csv decodeOrderSensitive = .ok [⟨1, 2, strL "a"⟩] ∧
    read_ranges_csv_claimed decodeOrderSensitive = .ok [⟨3, 4, strL "b"⟩] ∧
    read_ranges_csv decodeOrderSensitive ≠ read_ranges_csv_claimed decodeOrderSensitive := by
  decide

/-- C7 amended: the parser attempts the encodings in the order `utf-8-sig`
(UTF-8 with marker) first, then `utf-8`, then `cp1252` (Windows-1252), uses
the first that decodes the file, and if all three fail it surfaces the last
decoding failure. -/
theorem claim_C7 (d : String → Except String (List Row))
    (rowsA rowsB rowsC : List Row) (eA eB eC : String) :
    (d "utf-8-sig" = .ok rowsA →
      read_ranges_csv d = ((parseFrom 1 rowsA).mapError CsvErr.parseFail)) ∧
    (d "utf-8-sig" = .error eA → d "utf-8" = .ok rowsB →
      read_ranges_csv d = ((parseFrom 1 rowsB).mapError CsvErr.parseFail)) ∧
    (d "utf-8-sig" = .error eA → d "utf-8" = .error eB → d "cp1252" = .ok rowsC →
      read_ranges_csv d = ((parseFrom 1 rowsC).mapError CsvErr.parseFail)) ∧
    (d "utf-8-sig" = .error eA → d "utf-8" = .error eB → d "cp1252" = .error eC →
      read_ranges_csv d = .error (.decodeFail eC)) := by
  refine ⟨?_, ?_, ?_, ?_⟩
  · intro h1
    cases hp : parseFrom 1 rowsA <;>
      simp [read_ranges_csv, encodings_to_try, tryEncodings, h1, hp, Except.mapError]
  · intro h1 h2
    cases hp : parseFrom 1 rowsB <;>
      simp [read_ranges_csv, encodings_to_try, tryEncodings, h1, h2, hp, Except.mapError]
  · intro h1 h2 h3
    cases hp : parseFrom 1 rowsC <;>
      simp [read_ranges_csv, encodings_to_try, tryEncodings, h1, h2, h3, hp, Except.mapError]
  · intro h1 h2 h3
    simp [read_ranges_csv, encodings_to_try, tryEncodings, h1, h2, h3]

/-- Concrete all-fail decoder used to instantiate C7's amended theorem. -/
def decodeAllFail : String → Except String (List Row) := fun _ => .error "bad"

theorem claim_C7_witness :
    (decodeAllFail "utf-8-sig" = .ok [] →
      read_ranges_csv decodeAllFail = ((parseFrom 1 []).mapError CsvErr.parseFail)) ∧
    (decodeAllFail "utf-8-sig" = .error "bad" → decodeAllFail "utf-8" = .ok [] →
      read_ranges_csv decodeAllFail = ((parseFrom 1 []).mapError CsvErr.parseFail)) ∧
    (decodeAllFail "utf-8-sig" = .error "bad" → decodeAllFail "utf-8" = .error "bad" →
      decodeAllFail "cp1252" = .ok [] →
      read_ranges_csv decodeAllFail = ((parseFrom 1 []).mapError CsvErr.parseFail)) ∧
    (decodeAllFail "utf-8-sig" = .error "bad" → decodeAllFail "utf-8" = .error "bad" →
      decodeAllFail "cp1252" = .error "bad" →
      read_ranges_csv decodeAllFail = .error (.decodeFail "bad")) :=
  claim_C7 decodeAllFail [] [] [] "bad" "bad" "bad"

/-! ### C5: collision-avoiding output names -/

/-- Numeric value of a digit character. -/
def charVal (c : Char) : Nat := c.toNat - 48

theorem charVal_digitChar : ∀ d, d < 10 → charVal (Nat.digitChar d) = d := by decide

theorem natDigitsAux_foldl : ∀ fuel n acc, n < fuel →
    (natDigitsAux fuel n acc).foldl (fun a c => a * 10 + charVal c) 0 =
    acc.foldl (fun a c => a * 10 + charVal c) n := by
  intro fuel
  induction fuel with
  | zero => intro n acc h; omega
  | succ f ih =>
    intro n acc h
    rw [natDigitsAux]
    by_cases h10 : n < 10
    · rw [if_pos h10]
      simp [List.foldl_cons, charVal_digitChar n h10]
    · rw [if_neg h10]
      rw [ih (n / 10) _ (by omega)]
      simp only [List.foldl_cons]
      have hmod : n % 10 < 10 := by omega
      rw [charVal_digitChar _ hmod]
      have : n / 10 * 10 + n % 10 = n := by omega
      rw [this]

theorem natDigits_injective : Function.Injective natDigits := by
  intro a b h
  have ha := natDigitsAux_foldl (a + 1) a [] (by omega)
  have hb := natDigitsAux_foldl (b + 1) b [] (by omega)
  simp only [List.foldl_nil] at ha hb
  rw [natDigits] at h
  rw [h, natDigits, hb] at ha
  omega

theorem candName_inj (stem : PyStr) {a b : Nat} (h : candName stem a = candName stem b) :
    a = b := by
  unfold candName at h
  have h1 := List.append_cancel_right h
  have h2 := List.append_cancel_left h1
  have h3 : natDigits a = natDigits b := by injection h2
  exact natDigits_injective h3

/-- The sequence of names probed by the collision loop: first the current
name, then the successive counter candidates. -/
def resCand (stem cur : PyStr) (counter : Nat) : Nat → PyStr
  | 0 => cur
  | j + 1 => candName stem (counter + j)

theorem resolveLoop_not_mem (existing : List PyStr) (stem : PyStr) :
    ∀ fuel cur counter, (∃ j, j < fuel ∧ resCand stem cur counter j ∉ existing) →
    resolveLoop existing stem fuel cur counter ∉ existing := by
  intro fuel
  induction fuel with
  | zero =>
    intro cur counter h
    obtain ⟨j, hj, _⟩ := h
    omega
  | succ f ih =>
    intro cur counter h
    obtain ⟨j, hj, hfree⟩ := h
    by_cases hcur : cur ∈ existing
    · rw [resolveLoop, if_pos hcur]
      apply ih
      cases j with
      | zero => exact absurd hcur (by simpa [resCand] using hfree)
      | succ j' =>
        refine ⟨j', by omega, ?_⟩
        cases j' with
        | zero => simpa [resCand] using hfree
        | succ k =>
          have he : counter + 1 + k = counter + (k + 1) := by omega
          simp only [resCand] at hfree ⊢
          rw [he]
          exact hfree
    · rw [resolveLoop, if_neg hcur]
      exact hcur

theorem resolveLoop_eq_cand (existing : List PyStr) (stem : PyStr) :
    ∀ fuel counter cur n, counter ≤ n → cur ∈ existing →
    (∀ m, counter ≤ m → m < n → candName stem m ∈ existing) →
    candName stem n ∉ existing → n + 2 ≤ counter + fuel →
    resolveLoop existing stem fuel cur counter = candName stem n := by
  intro fuel
  induction fuel with
  | zero => intro counter cur n h1 h2 h3 h4 h5; omega
  | succ f ih =>
    intro counter cur n hcn hcur hbusy hfree hfuel
    rw [resolveLoop, if_pos hcur]
    by_cases heq : counter = n
    · subst heq
      obtain ⟨f', rfl⟩ : ∃ f', f = f' + 1 := ⟨f - 1, by omega⟩
      rw [resolveLoop, if_neg hfree]
    · exact ih (counter + 1) (candName stem counter) n (by omega)
        (hbusy counter (le_refl _) (by omega))
        (fun m hm1 hm2 => hbusy m (by omega) hm2) hfree (by omega)

theorem resolveName_not_mem (existing : List PyStr) (name : PyStr) :
    resolveName existing name ∉ existing := by
  unfold resolveName
  by_cases hname : name ∈ existing
  · have hex : ∃ m, 1 ≤ m ∧ m ≤ existing.length + 1 ∧
        candName (pyStem name) m ∉ existing := by
      by_contra hall
      push_neg at hall
      have hsub : (Finset.Icc 1 (existing.length + 1)).image (candName (pyStem name)) ⊆
          existing.toFinset := by
        intro x hx
        rw [Finset.mem_image] at hx
        obtain ⟨m, hm, rfl⟩ := hx
        rw [Finset.mem_Icc] at hm
        exact List.mem_toFinset.mpr (hall m hm.1 hm.2)
      have hcard : ((Finset.Icc 1 (existing.length + 1)).image (candName (pyStem name))).card =
          existing.length + 1 := by
        rw [Finset.card_image_of_injOn (fun a _ b _ hab => candName_inj _ hab), Nat.card_Icc]
        omega
      have h1 := Finset.card_le_card hsub
      have h2 := List.toFinset_card_le existing
      rw [hcard] at h1
      omega
    obtain ⟨m, hm1, hm2, hmfree⟩ := hex
    apply resolveLoop_not_mem
    refine ⟨m, by omega, ?_⟩
    obtain ⟨k, rfl⟩ : ∃ k, m = k + 1 := ⟨m - 1, by omega⟩
    simpa [resCand, Nat.add_comm] using hmfree
  · apply resolveLoop_not_mem
    exact ⟨0, by omega, by simpa [resCand] using hname⟩

/-- C5: if the normalised target name already exists, the written name is
`stem_n.pdf` for the first `n = 1, 2, ...` whose candidate does not yet exist
(`n`'s minimality is expressed by the hypotheses), and the written name never
collides with an existing file — so a second run never overwrites a first
run's outputs. -/
theorem claim_C5 (existing : List PyStr) (name : PyStr) (n : Nat)
    (hn : 1 ≤ n) (hmem : name ∈ existing)
    (hbusy : ∀ m, 1 ≤ m → m < n → candName (pyStem name) m ∈ existing)
    (hfree : candName (pyStem name) n ∉ existing) :
    resolveName existing name = candName (pyStem name) n ∧
    resolveName existing name ∉ existing := by
  have hbound : n ≤ existing.length + 1 := by
    have hsub : (Finset.Ico 1 n).image (candName (pyStem name)) ⊆ existing.toFinset := by
      intro x hx
      rw [Finset.mem_image] at hx
      obtain ⟨m, hm, rfl⟩ := hx
      rw [Finset.mem_Ico] at hm
      exact List.mem_toFinset.mpr (hbusy m hm.1 hm.2)
    have hcard : ((Finset.Ico 1 n).image (candName (pyStem name))).card = n - 1 := by
      rw [Finset.card_image_of_injOn (fun a _ b _ hab => candName_inj _ hab), Nat.card_Ico]
    have h1 := Finset.card_le_card hsub
    have h2 := List.toFinset_card_le existing
    rw [hcard] at h1
    omega
  have heq : resolveName existing name = candName (pyStem name) n := by
    unfold resolveName
    exact resolveLoop_eq_cand existing (pyStem name) (existing.length + 2) 1 name n hn hmem
      (fun m hm1 hm2 => hbusy m hm1 hm2) hfree (by omega)
  exact ⟨heq, heq ▸ hfree⟩

theorem claim_C5_witness :
    resolveName [strL "a.pdf"] (strL "a.pdf") = candName (pyStem (strL "a.pdf")) 1 ∧
    resolveName [strL "a.pdf"] (strL "a.pdf") ∉ [strL "a.pdf"] :=
  claim_C5 [strL "a.pdf"] (strL "a.pdf") 1 (by decide) (by decide)
    (fun m h1 h2 => absurd h2 (by omega)) (by decide)

/-! ### C2: abort behaviour of the record loop -/

theorem runSplit_abort (total : Int) : ∀ (pre : List Record) (existing : List PyStr) (i : Nat)
    (r : Record) (rest : List Record) (e : ValErr),
    (∀ j, j < pre.length → validateRecord total (i + j) (pre.getD j default) = .ok ()) →
    validateRecord total (i + pre.length) r = .error e →
    (runSplit total existing i (pre ++ r :: rest)).1.length = pre.length ∧
    (runSplit total existing i (pre ++ r :: rest)).2 = some e := by
  intro pre
  induction pre with
  | nil =>
    intro existing i r rest e _ hr
    have hr' : validateRecord total i r = .error e := by simpa using hr
    simp [runSplit, splitStep, hr']
  | cons p pre' ih =>
    intro existing i r rest e hpre hr
    have hp : validateRecord total i p = .ok () := by
      simpa using hpre 0 (by simp only [List.length_cons]; omega)
    have hstep : splitStep total existing i p =
        .ok (resolveName existing (ensure_pdf p.output_file), pageIndices p) := by
      unfold splitStep
      rw [hp]
    have hih := ih (resolveName existing (ensure_pdf p.output_file) :: existing) (i + 1) r rest e
      (fun j hj => by
        have := hpre (j + 1) (by simpa using Nat.succ_lt_succ hj)
        have he : i + (j + 1) = i + 1 + j := by omega
        rw [he] at this
        simpa using this)
      (by
        have he : i + (p :: pre').length = i + 1 + pre'.length := by
          simp only [List.length_cons]
          omega
        rw [he] at hr
        exact hr)
    simp only [List.cons_append, runSplit, hstep, List.length_cons, List.append_eq]
    exact ⟨by rw [hih.1], hih.2⟩

/-- C2 counterexample: with a one-page document and records `(1,1,"a")` then
`(0,1,"b")`, the run aborts at the second record's validation, yet the first
record's output file has already been written — the written-file list is not
empty, contradicting "no output file is written for any record". -/
theorem claim_C2_counterexample :
    runSplit 1 [] 1 [⟨1, 1, strL "a"⟩, ⟨0, 1, strL "b"⟩] =
      ([(strL "a.pdf", [0])], some (.pageLow 2 0 1)) ∧
    (runSplit 1 [] 1 [⟨1, 1, strL "a"⟩, ⟨0, 1, strL "b"⟩]).1 ≠ [] := by
  decide

/-- C2 amended: when a record fails one of the three validation checks, the
run aborts at that record: nothing is written for the failing record or for
any later record, but the outputs of the earlier records that passed
validation have already been written and remain (exactly one per earlier
record). -/
theorem claim_C2 (total : Int) (existing : List PyStr) (pre : List Record) (r : Record)
    (rest : List Record) (e : ValErr)
    (hpre : ∀ j, j < pre.length → validateRecord total (1 + j) (pre.getD j default) = .ok ())
    (hr : validateRecord total (1 + pre.length) r = .error e) :
    (runSplit total existing 1 (pre ++ r :: rest)).1.length = pre.length ∧
    (runSplit total existing 1 (pre ++ r :: rest)).2 = some e :=
  runSplit_abort total pre existing 1 r rest e hpre hr

theorem claim_C2_witness :
    (runSplit 1 [] 1 ([⟨1, 1, strL "a"⟩] ++ ⟨0, 1, strL "b"⟩ :: [])).1.length =
      [(⟨1, 1, strL "a"⟩ : Record)].length ∧
    (runSplit 1 [] 1 ([⟨1, 1, strL "a"⟩] ++ ⟨0, 1, strL "b"⟩ :: [])).2 =
      some (.pageLow 2 0 1) :=
  claim_C2 1 [] [⟨1, 1, strL "a"⟩] ⟨0, 1, strL "b"⟩ [] (.pageLow 2 0 1)
    (by decide) (by decide)

/-! ### C6: one output file per surviving row -/

theorem parseFrom_length : ∀ (rows : List Row) (ridx : Nat) (recs : List Record),
    parseFrom ridx rows = .ok recs → recs.length = countSurvivingFrom ridx rows := by
  intro rows
  induction rows with
  | nil =>
    intro ridx recs h
    simp only [parseFrom] at h
    injection h with h'
    subst h'
    rfl
  | cons row rest ih =>
    intro ridx recs h
    rw [parseFrom] at h
    simp only [countSurvivingFrom]
    by_cases hb : isBlankRow row = true
    · rw [if_pos hb] at h
      rw [if_neg (fun hc => hc.1 hb)]
      simpa using ih (ridx + 1) recs h
    · rw [if_neg hb] at h
      by_cases hlen : row.length < 3
      · rw [if_pos hlen] at h
        exact absurd h (by simp)
      · rw [if_neg hlen] at h
        by_cases hhd : (ridx == 1 && isHeaderRow (pyStrip (row.getD 0 []))
            (pyStrip (row.getD 1 [])) (pyStrip (row.getD 2 []))) = true
        · rw [if_pos hhd] at h
          have hhd' := hhd
          rw [Bool.and_eq_true, beq_iff_eq] at hhd'
          rw [if_neg (fun hc => hc.2 ⟨hhd'.1, hhd'.2⟩)]
          simpa using ih (ridx + 1) recs h
        · rw [if_neg hhd] at h
          have hcond : ¬(ridx = 1 ∧ isHeaderRow (pyStrip (row.getD 0 []))
              (pyStrip (row.getD 1 [])) (pyStrip (row.getD 2 [])) = true) := by
            intro hc
            apply hhd
            rw [Bool.and_eq_true, beq_iff_eq]
            exact ⟨hc.1, hc.2⟩
          rw [if_pos ⟨hb, hcond⟩]
          cases hc0 : pyInt (pyStrip (row.getD 0 [])) with
          | none =>
            simp only [hc0] at h
            exact absurd h (by simp)
          | some s =>
            cases hc1 : pyInt (pyStrip (row.getD 1 [])) with
            | none =>
              simp only [hc0, hc1] at h
              exact absurd h (by simp)
            | some e =>
              simp only [hc0, hc1] at h
              by_cases h2 : (pyStrip (row.getD 2 [])).isEmpty = true
              · rw [if_pos h2] at h
                exact absurd h (by simp)
              · rw [if_neg h2] at h
                cases hrec : parseFrom (ridx + 1) rest with
                | error pe =>
                  rw [hrec] at h
                  exact absurd h (by simp [Except.map])
                | ok rs =>
                  rw [hrec] at h
                  simp only [Except.map] at h
                  injection h with h'
                  subst h'
                  simp only [List.length_cons]
                  rw [ih (ridx + 1) rs hrec]
                  omega

theorem runSplit_length (total : Int) : ∀ (recs : List Record) (existing : List PyStr) (i : Nat),
    (runSplit total existing i recs).2 = none →
    (runSplit total existing i recs).1.length = recs.length := by
  intro recs
  induction recs with
  | nil => intro existing i _; rfl
  | cons r rest ih =>
    intro existing i h
    cases hs : splitStep total existing i r with
    | error e => simp [runSplit, hs] at h
    | ok out =>
      simp only [runSplit, hs] at h ⊢
      simp only [List.length_cons]
      rw [ih _ _ h]

theorem runSplit_paths (total : Int) : ∀ (recs : List Record) (existing : List PyStr) (i : Nat),
    ((runSplit total existing i recs).1.map Prod.fst).Nodup ∧
    ∀ p ∈ (runSplit total existing i recs).1.map Prod.fst, p ∉ existing := by
  intro recs
  induction recs with
  | nil =>
    intro existing i
    refine ⟨List.nodup_nil, ?_⟩
    intro p hp
    simp [runSplit] at hp
  | cons r rest ih =>
    intro existing i
    cases hs : splitStep total existing i r with
    | error e => simp [runSplit, hs]
    | ok out =>
      have hout : out.1 ∉ existing := by
        have hstep : splitStep total existing i r = .ok out := hs
        unfold splitStep at hstep
        cases hv : validateRecord total i r with
        | error e =>
          rw [hv] at hstep
          exact absurd hstep (by simp)
        | ok u =>
          rw [hv] at hstep
          injection hstep with h'
          rw [← h']
          exact resolveName_not_mem existing (ensure_pdf r.output_file)
      obtain ⟨ihnd, ihmem⟩ := ih (out.1 :: existing) (i + 1)
      simp only [runSplit, hs, List.map_cons]
      constructor
      · rw [List.nodup_cons]
        refine ⟨?_, ihnd⟩
        intro hmem
        exact (ihmem out.1 hmem) (List.mem_cons_self _ _)
      · intro p hp
        rcases List.mem_cons.mp hp with hp1 | hp2
        · rw [hp1]
          exact hout
        · intro hin
          exact (ihmem p hp2) (List.mem_cons_of_mem _ hin)

/-- C6: for a table that parses and a run in which every record validates, the
number of files written equals the number of rows that are neither blank nor
the header row, and the written names are pairwise distinct — one file per
parsed record. -/
theorem claim_C6 (total : Int) (rows : List Row) (recs : List Record)
    (files : List (PyStr × List Int))
    (hparse : parseFrom 1 rows = .ok recs)
    (hrun : runSplit total [] 1 recs = (files, none)) :
    files.length = countSurvivingFrom 1 rows ∧ (files.map Prod.fst).Nodup := by
  have h1 := parseFrom_length rows 1 recs hparse
  have h2 := runSplit_length total recs [] 1 (by rw [hrun])
  have h3 := (runSplit_paths total recs [] 1).1
  rw [hrun] at h2 h3
  exact ⟨by rw [h2, h1], h3⟩

theorem claim_C6_witness :
    ([(strL "a.pdf", [0, 1])] : List (PyStr × List Int)).length =
      countSurvivingFrom 1 [[strL "start", strL "stop", strL "filename"],
        [strL "1", strL "2", strL "a"]] ∧
    (([(strL "a.pdf", [0, 1])] : List (PyStr × List Int)).map Prod.fst).Nodup :=
  claim_C6 5 [[strL "start", strL "stop", strL "filename"], [strL "1", strL "2", strL "a"]]
    [⟨1, 2, strL "a"⟩] [(strL "a.pdf", [0, 1])] (by decide) (by decide)
